import Mathlib

/-!
Verification of the whatsapp-clone python client's E2EE core
(src/python-client/src/whatsapp_client/crypto/...) against its
natural-language specification.

Shallow embedding conventions
=============================

* X25519 (nacl `crypto_scalarmult`) is modelled over the cyclic group
  generated by an element of the multiplicative monoid of `ZMod 251`:
  a private key is a scalar exponent `a : Nat`, the corresponding
  public key is `g ^ a`, and `crypto_scalarmult(priv, pub)` is
  `pub ^ priv`.  The only algebraic fact the code relies on —
  commutativity of the two-sided Diffie-Hellman computation — holds in
  this model exactly as it does on Curve25519.  Public keys are carried
  on the wire as 32-byte strings; `pubBytes` fixes a concrete 32-byte
  little-endian representation so the real hex/base64 text codecs of
  the source can be applied to them.

* Hash-based derivations (HKDF-SHA256, HMAC-SHA256) are modelled as
  the free term algebra `KB`: each derivation in the source becomes a
  constructor application recording exactly the arguments the source
  passes (salt, info string, input key material, output slice for the
  two HKDF halves; HMAC domain-separator byte).  Two derived keys are
  equal in the model iff they were derived the same way, which is the
  standard symbolic (collision-free) reading of a cryptographic hash.

* The XSalsa20-Poly1305 `SecretBox` AEAD is modelled symbolically:
  a ciphertext is the pair of the encryption key and the plaintext,
  and opening succeeds iff the key matches.  The base64 transport
  encoding of whole ciphertext blobs (`b64encode` at the end of
  `encrypt`, `b64decode` at the start of the decrypt paths) is an
  inverse pair applied to an opaque blob and is elided.  The hex and
  base64 text encodings of *ratchet public keys*, which the skipped-key
  map logic depends on, are implemented for real (`hexOfBytes`,
  `b64encode`, `b64decode`, `hexDecode` below).

* Python exceptions become `Except String`; `None` becomes `Option`;
  Python dicts keyed by `(str, int)` pairs become association lists in
  insertion order, mirroring dict iteration order.

* Calls to `PrivateKey.generate()` (fresh randomness) become explicit
  `Nat` parameters supplying the fresh scalar.
-/

namespace WhatsAppClone

/-! ## The Diffie-Hellman group model -/

/-- Group of public keys: the multiplicative monoid of the field with 251
elements stands in for the X25519 curve points. -/
abbrev G : Type := ZMod 251

/-- Fixed base point (the X25519 base point in the model). -/
def gBase : G := 7

/-- Public key of the scalar (private key) `a`, i.e. nacl
`PrivateKey(a).public_key`. -/
def gpow (a : Nat) : G := gBase ^ a

/-- Model of nacl `crypto_scalarmult(bytes(priv), bytes(pub))`. -/
def scalarMult (priv : Nat) (pub : G) : G := pub ^ priv

/-! ## Byte-string codecs used by the source

`bytes.hex()`, `base64.b64encode`, `base64.b64decode` and
`bytes.fromhex` are implemented over `List Nat` byte strings; these are
the codecs `_skip_message_keys`, `encrypt` and `decrypt` apply to
ratchet public keys. -/

/-- Little-endian byte decomposition, fixed width (used to give group
elements and scalars a concrete 32-byte wire form). -/
def toLEBytes : Nat → Nat → List Nat
  | 0, _ => []
  | w + 1, n => n % 256 :: toLEBytes w (n / 256)

/-- The 32 raw bytes of a public key (`bytes(public_key)` in nacl). -/
def pubBytes (x : G) : List Nat := toLEBytes 32 x.val

/-- Recover a group element from its 32 wire bytes
(`PublicKey(data, encoder=RawEncoder)`). -/
def bytesToNat : List Nat → Nat
  | [] => 0
  | b :: bs => b + 256 * bytesToNat bs

def bytesToPub (bs : List Nat) : G := (bytesToNat bs : ZMod 251)

/-- Lower-case hex digit, as produced by Python `bytes.hex()`. -/
def hexDigitChar (n : Nat) : Char :=
  if n < 10 then Char.ofNat (48 + n) else Char.ofNat (87 + n)

/-- Python `bytes.hex()`. -/
def hexOfBytes (bs : List Nat) : String :=
  String.mk ((bs.map (fun b => [hexDigitChar (b / 16), hexDigitChar (b % 16)])).flatten)

def hexVal (c : Char) : Option Nat :=
  if 48 ≤ c.toNat ∧ c.toNat ≤ 57 then some (c.toNat - 48)
  else if 97 ≤ c.toNat ∧ c.toNat ≤ 102 then some (c.toNat - 87)
  else if 65 ≤ c.toNat ∧ c.toNat ≤ 70 then some (c.toNat - 55)
  else none

def hexDecodeChars : List Char → Option (List Nat)
  | [] => some []
  | c1 :: c2 :: rest => do
    let h ← hexVal c1
    let l ← hexVal c2
    let t ← hexDecodeChars rest
    pure ((16 * h + l) :: t)
  | [_] => none

/-- Python `bytes.fromhex` (on whitespace-free input). -/
def hexDecode (s : String) : Option (List Nat) := hexDecodeChars s.data

/-- Character `i` of the standard base64 alphabet. -/
def b64Char (n : Nat) : Char :=
  if n < 26 then Char.ofNat (65 + n)
  else if n < 52 then Char.ofNat (97 + (n - 26))
  else if n < 62 then Char.ofNat (48 + (n - 52))
  else if n = 62 then Char.ofNat 43
  else Char.ofNat 47

def b64EncodeChars : List Nat → List Char
  | a :: b :: c :: rest =>
    b64Char (a / 4) :: b64Char ((a % 4) * 16 + b / 16) ::
    b64Char ((b % 16) * 4 + c / 64) :: b64Char (c % 64) :: b64EncodeChars rest
  | [a, b] =>
    [b64Char (a / 4), b64Char ((a % 4) * 16 + b / 16), b64Char ((b % 16) * 4), '=']
  | [a] => [b64Char (a / 4), b64Char ((a % 4) * 16), '=', '=']
  | [] => []

/-- Python `base64.b64encode(...).decode('ascii')`. -/
def b64encode (bs : List Nat) : String := String.mk (b64EncodeChars bs)

def b64Val (c : Char) : Option Nat :=
  if 65 ≤ c.toNat ∧ c.toNat ≤ 90 then some (c.toNat - 65)
  else if 97 ≤ c.toNat ∧ c.toNat ≤ 122 then some (c.toNat - 97 + 26)
  else if 48 ≤ c.toNat ∧ c.toNat ≤ 57 then some (c.toNat - 48 + 52)
  else if c.toNat = 43 then some 62
  else if c.toNat = 47 then some 63
  else none

def b64DecodeGroups : List Char → Option (List Nat)
  | [] => some []
  | c1 :: c2 :: c3 :: c4 :: rest => do
    let v1 ← b64Val c1
    let v2 ← b64Val c2
    if c3 = '=' ∧ c4 = '=' ∧ rest = [] then
      pure [v1 * 4 + v2 / 16]
    else do
      let v3 ← b64Val c3
      if c4 = '=' ∧ rest = [] then
        pure [v1 * 4 + v2 / 16, (v2 % 16) * 16 + v3 / 4]
      else do
        let v4 ← b64Val c4
        let t ← b64DecodeGroups rest
        pure ((v1 * 4 + v2 / 16) :: ((v2 % 16) * 16 + v3 / 4) :: ((v3 % 4) * 64 + v4) :: t)
  | _ => none

/-- Python `base64.b64decode` (default validation: characters outside
the alphabet are discarded before decoding; length must then be a
multiple of 4). -/
def b64decode (s : String) : Option (List Nat) :=
  b64DecodeGroups (s.data.filter (fun c => (b64Val c).isSome ∨ c = '='))

/-! ## Decimal printing/parsing and `str.split`

Needed for the skipped-key map serialization format `f"{dh}:{n}"` /
`key_str.split(":")` / `int(n)`. -/

def digitChar (n : Nat) : Char := Char.ofNat (48 + n)

def natDigitsAux : Nat → Nat → List Char
  | 0, _ => []
  | fuel + 1, n =>
    if n < 10 then [digitChar n]
    else natDigitsAux fuel (n / 10) ++ [digitChar (n % 10)]

/-- Python `str(n)` for a natural number. -/
def natDigits (n : Nat) : List Char := natDigitsAux (n + 1) n

def parseDigitsAux : Nat → List Char → Option Nat
  | acc, [] => some acc
  | acc, c :: cs =>
    if 48 ≤ c.toNat ∧ c.toNat ≤ 57 then parseDigitsAux (acc * 10 + (c.toNat - 48)) cs
    else none

/-- Python `int(s)` for a digit string (no sign, no whitespace). -/
def parseDigits : List Char → Option Nat
  | [] => none
  | cs => parseDigitsAux 0 cs

/-- Python `str.split(sep)` for a single-character separator. -/
def splitChar (sep : Char) : List Char → List (List Char)
  | [] => [[]]
  | c :: cs =>
    let r := splitChar sep cs
    if c = sep then [] :: r
    else
      match r with
      | h :: t => (c :: h) :: t
      | [] => [[c]]

/-- UTF-8 bytes of an (ASCII) string literal, as passed for HKDF salts. -/
def strBytes (s : String) : List Nat := s.data.map Char.toNat

/-! ## Symbolic key material -/

/-- Free term algebra of byte strings produced by the source's key
derivations (see header comment). `hkdf salt info len ikm idx` is the
`idx`-th 32-byte slice of `HKDF-SHA256(salt, info, length=len)(ikm)`;
`hmacD key tag` is `hmac.digest(key, bytes([tag]), sha256)`;
`dhOut x` is a `crypto_scalarmult` output; `cat2` is byte-string
concatenation (`b"".join`). -/
inductive KB : Type where
  | raw (bs : List Nat)
  | dhOut (x : G)
  | hkdf (salt : KB) (info : String) (len : Nat) (ikm : KB) (idx : Nat)
  | hmacD (key : KB) (tag : Nat)
  | cat2 (a b : KB)
  deriving DecidableEq

/-- `b"".join(parts)` (right-nested binary concatenation). -/
def catList : List KB → KB
  | [] => KB.raw []
  | [k] => k
  | k :: rest => KB.cat2 k (catList rest)

/-- RatchetEngine._kdf_rk: HKDF-SHA256(salt=root_key,
info=b"WhatsAppCloneRootKey", length=64) applied to dh_output, split
into (new_root_key, chain_key). -/
def kdfRk (rootKey dhOutput : KB) : KB × KB :=
  (KB.hkdf rootKey "WhatsAppCloneRootKey" 64 dhOutput 0,
   KB.hkdf rootKey "WhatsAppCloneRootKey" 64 dhOutput 1)

/-- RatchetEngine._derive_message_key: hmac.digest(chain_key, b"\x02", sha256). -/
def deriveMessageKey (chainKey : KB) : KB := KB.hmacD chainKey 2

/-- RatchetEngine._advance_chain_key: hmac.digest(chain_key, b"\x01", sha256). -/
def advanceChainKey (chainKey : KB) : KB := KB.hmacD chainKey 1

/-! ## SecretBox AEAD model -/

/-- Symbolic XSalsa20-Poly1305 box: `nonce ‖ ct ‖ mac` produced by
`SecretBox(key).encrypt(plaintext)`. -/
inductive Cipher : Type where
  | sbox (key : KB) (pt : String)
  deriving DecidableEq

/-- `SecretBox(key).decrypt(c)`: succeeds iff the key matches. -/
def sboxOpen (key : KB) : Cipher → Option String
  | Cipher.sbox k pt => if k = key then some pt else none

/-! ## Ratchet state (crypto/ratchet.py, RatchetState) -/

/-- Message header (RatchetHeader).  `ratchetKey` carries the sender's
DH public key as text, exactly as the wire dict fields `ratchetKey` /
`previousChainLength` / `messageNumber`. -/
structure RatchetHeader : Type where
  ratchetKey : String
  previousChainLength : Nat
  messageNumber : Nat
  deriving DecidableEq

/-- State of the Double Ratchet (RatchetState dataclass).  A private
key is its scalar; `skipped_keys` is the dict
`(str, int) → bytes` in insertion order. -/
structure RatchetState : Type where
  dh_self : Option Nat
  dh_remote : Option G
  root_key : KB
  sending_chain_key : Option KB
  receiving_chain_key : Option KB
  sending_message_number : Nat
  receiving_message_number : Nat
  prev_sending_chain_length : Nat
  skipped_keys : List ((String × Nat) × KB)
  max_skip : Nat
  deriving DecidableEq

/-- RatchetState() with the dataclass defaults. -/
def freshRatchetState : RatchetState where
  dh_self := none
  dh_remote := none
  root_key := KB.raw []
  sending_chain_key := none
  receiving_chain_key := none
  sending_message_number := 0
  receiving_message_number := 0
  prev_sending_chain_length := 0
  skipped_keys := []
  max_skip := 1000

/-! Python-dict operations on the skipped-key association list. -/

def lookupSK (k : String × Nat) : List ((String × Nat) × KB) → Option KB
  | [] => none
  | (k', v) :: rest => if k' = k then some v else lookupSK k rest

/-- dict assignment `d[k] = v`: replaces in place if present, else
appends (dicts preserve insertion order). -/
def insertSK (k : String × Nat) (v : KB) : List ((String × Nat) × KB) → List ((String × Nat) × KB)
  | [] => [(k, v)]
  | (k', v') :: rest => if k' = k then (k, v) :: rest else (k', v') :: insertSK k v rest

/-- dict deletion `del d[k]` (removes the first, hence in a dict the
only, binding). -/
def eraseSK (k : String × Nat) : List ((String × Nat) × KB) → List ((String × Nat) × KB)
  | [] => []
  | (k', v') :: rest => if k' = k then rest else (k', v') :: eraseSK k rest

/-! ## Ratchet engine operations (crypto/ratchet.py, RatchetEngine) -/

/-- Key under which `_skip_message_keys` stores a skipped message key:
`bytes(self.state.dh_remote).hex() if self.state.dh_remote else ""`. -/
def dhRemoteHex : Option G → String
  | some x => hexOfBytes (pubBytes x)
  | none => ""

/-- The while-loop body of `_skip_message_keys`, run `fuel` times
(`fuel = until - receiving_message_number`, the number of iterations
of `while self.state.receiving_message_number < until`). -/
def skipAux (dhRemote : Option G) (maxSkip : Nat) :
    Nat → KB → Nat → List ((String × Nat) × KB) →
    Except String (KB × Nat × List ((String × Nat) × KB))
  | 0, ck, nr, sk => .ok (ck, nr, sk)
  | fuel + 1, ck, nr, sk =>
    if sk.length ≥ maxSkip then .error "Too many skipped message keys"
    else
      skipAux dhRemote maxSkip fuel (advanceChainKey ck) (nr + 1)
        (insertSK (dhRemoteHex dhRemote, nr) (deriveMessageKey ck) sk)

/-- RatchetEngine._skip_message_keys. -/
def skipMessageKeys (s : RatchetState) (til : Nat) : Except String RatchetState :=
  match s.receiving_chain_key with
  | none => .ok s
  | some ck =>
    match skipAux s.dh_remote s.max_skip (til - s.receiving_message_number) ck
        s.receiving_message_number s.skipped_keys with
    | .error e => .error e
    | .ok (ck', nr', sk') =>
      .ok { s with receiving_chain_key := some ck',
                   receiving_message_number := nr',
                   skipped_keys := sk' }

/-- RatchetEngine._dh_ratchet (sender-side DH ratchet step). -/
def dhRatchet (s : RatchetState) : Except String RatchetState :=
  match s.dh_self, s.dh_remote with
  | some a, some remote =>
    let dhOutput := KB.dhOut (scalarMult a remote)
    let rk := kdfRk s.root_key dhOutput
    .ok { s with root_key := rk.1,
                 sending_chain_key := some rk.2,
                 prev_sending_chain_length := s.sending_message_number,
                 sending_message_number := 0 }
  | _, _ => .error "DH keys not initialized"

/-- RatchetEngine._dh_ratchet_receive.  `freshSelf` is the scalar of
the `PrivateKey.generate()` call for the next sending chain. -/
def dhRatchetReceive (s : RatchetState) (remote : G) (freshSelf : Nat) :
    Except String RatchetState :=
  match s.dh_self with
  | none => .error "DH keys not initialized"
  | some a =>
    let dhOutput := KB.dhOut (scalarMult a remote)
    let rk := kdfRk s.root_key dhOutput
    dhRatchet { s with dh_remote := some remote,
                       root_key := rk.1,
                       receiving_chain_key := some rk.2,
                       receiving_message_number := 0,
                       dh_self := some freshSelf }

/-- RatchetEngine.encrypt.  Returns (ciphertext, header, new state). -/
def ratchetEncrypt (s : RatchetState) (plaintext : String) :
    Except String (Cipher × RatchetHeader × RatchetState) := do
  -- If no sending chain, perform DH ratchet (responder case)
  let s1 ← match s.sending_chain_key with
    | none => dhRatchet s
    | some _ => pure s
  match s1.sending_chain_key, s1.dh_self with
  | some ck, some a =>
    let messageKey := deriveMessageKey ck
    let header : RatchetHeader :=
      { ratchetKey := b64encode (pubBytes (gpow a)),
        previousChainLength := s1.prev_sending_chain_length,
        messageNumber := s1.sending_message_number }
    let ciphertext := Cipher.sbox messageKey plaintext
    .ok (ciphertext, header,
      { s1 with sending_chain_key := some (advanceChainKey ck),
                sending_message_number := s1.sending_message_number + 1 })
  | none, _ => .error "Sending chain not initialized"
  | _, none => .error "DH keys not initialized"

/-- Ratchet-key parsing at the top of RatchetEngine.decrypt: try
base64 (accepted only if it yields 32 bytes), then hex. -/
def parseRatchetKey (s : String) : Except String (List Nat) :=
  let viaHex : Except String (List Nat) :=
    match hexDecode s with
    | some h => .ok h
    | none => .error "Invalid ratchet key format"
  match b64decode s with
  | some bs => if bs.length = 32 then .ok bs else viaHex
  | none => viaHex

/-- RatchetEngine.decrypt.  `freshSelf` feeds the
`PrivateKey.generate()` inside `_dh_ratchet_receive` when a DH ratchet
is triggered.  Returns (plaintext, new in-memory state); every failure
raises, discarding the working state. -/
def ratchetDecrypt (s : RatchetState) (ciphertext : Cipher)
    (header : RatchetHeader) (freshSelf : Nat) :
    Except String (String × RatchetState) := do
  let remoteBytes ← parseRatchetKey header.ratchetKey
  let sameRemote : Bool :=
    match s.dh_remote with
    | some x => remoteBytes == pubBytes x
    | none => false
  let s1 ←
    if sameRemote then pure s
    else do
      let sa ← skipMessageKeys s header.previousChainLength
      dhRatchetReceive sa (bytesToPub remoteBytes) freshSelf
  let s2 ← skipMessageKeys s1 header.messageNumber
  match s2.receiving_chain_key with
  | none => .error "Receiving chain not initialized"
  | some ck =>
    let messageKey := deriveMessageKey ck
    let s3 := { s2 with receiving_chain_key := some (advanceChainKey ck),
                        receiving_message_number := s2.receiving_message_number + 1 }
    match sboxOpen messageKey ciphertext with
    | some pt => .ok (pt, s3)
    | none => .error "Decryption failed"

/-- RatchetEngine.try_skipped_message_keys.  Looks up
`(header.dh_public_key, header.message_number)` — the header's textual
ratchet key — deletes the entry on a hit before attempting the AEAD
open, and returns None (without restoring the entry) if the open
fails. -/
def trySkippedMessageKeys (s : RatchetState) (ciphertext : Cipher)
    (header : RatchetHeader) : Option String × RatchetState :=
  let keyId := (header.ratchetKey, header.messageNumber)
  match lookupSK keyId s.skipped_keys with
  | some messageKey =>
    let s1 := { s with skipped_keys := eraseSK keyId s.skipped_keys }
    (sboxOpen messageKey ciphertext, s1)
  | none => (none, s)

/-- RatchetEngine.initialize_responder (called from
process_first_message): derive (root, receiving chain) from the X3DH
shared secret and 32 zero bytes, adopt the sender's ratchet key, and
generate an own DH pair (`freshSelf`). -/
def initializeResponder (sharedSecret : KB) (remoteRatchetKey : List Nat)
    (freshSelf : Nat) : RatchetState :=
  let rk := kdfRk sharedSecret (KB.raw (List.replicate 32 0))
  { freshRatchetState with
      root_key := rk.1,
      receiving_chain_key := some rk.2,
      receiving_message_number := 0,
      dh_remote := some (bytesToPub remoteRatchetKey),
      dh_self := some freshSelf }

/-! ## Ratchet state (de)serialization

serialize_state writes hex strings via `.hex()` and deserialize_state
reads them back via `bytes.fromhex`; this mutually inverse pair applied
to opaque key material is elided, so key-material fields keep their
model types.  The skipped-key dict serialization — the textual packing
`f"{dh}:{n}"` and its `split(":")` / `int(n)` parsing — is modelled
with the real string codecs above. -/

/-- The dict produced by RatchetEngine.serialize_state. -/
structure SerializedState : Type where
  dh_self : Option Nat
  dh_remote : Option G
  root_key : KB
  sending_chain_key : Option KB
  receiving_chain_key : Option KB
  sending_message_number : Nat
  receiving_message_number : Nat
  prev_sending_chain_length : Nat
  skipped_keys : List (String × KB)
  deriving DecidableEq

/-- RatchetEngine.serialize_state. -/
def serializeState (s : RatchetState) : SerializedState where
  dh_self := s.dh_self
  dh_remote := s.dh_remote
  root_key := s.root_key
  sending_chain_key := s.sending_chain_key
  receiving_chain_key := s.receiving_chain_key
  sending_message_number := s.sending_message_number
  receiving_message_number := s.receiving_message_number
  prev_sending_chain_length := s.prev_sending_chain_length
  skipped_keys :=
    s.skipped_keys.map (fun p => (String.mk (p.1.1.data ++ ':' :: natDigits p.1.2), p.2))

/-- Parse one serialized skipped-map key: `dh, n = key_str.split(":")`
(exactly two parts or ValueError) followed by `int(n)`. -/
def parseSkippedKey (k : String) : Except String (String × Nat) :=
  match splitChar ':' k.data with
  | [dh, nChars] =>
    match parseDigits nChars with
    | some n => .ok (String.mk dh, n)
    | none => .error "invalid literal for int"
  | _ => .error "not enough values to unpack"

/-- RatchetEngine.deserialize_state.  The skipped map is rebuilt by
dict insertion in iteration order; `max_skip` comes from the fresh
RatchetState default. -/
def deserializeState (d : SerializedState) : Except String RatchetState := do
  let entries ← d.skipped_keys.foldlM
    (fun (acc : List ((String × Nat) × KB)) p => do
      let k ← parseSkippedKey p.1
      pure (insertSK k p.2 acc)) []
  .ok { freshRatchetState with
        dh_self := d.dh_self,
        dh_remote := d.dh_remote,
        root_key := d.root_key,
        sending_chain_key := d.sending_chain_key,
        receiving_chain_key := d.receiving_chain_key,
        sending_message_number := d.sending_message_number,
        receiving_message_number := d.receiving_message_number,
        prev_sending_chain_length := d.prev_sending_chain_length,
        skipped_keys := entries }

/-! ## X3DH (crypto/x3dh.py)

Bundle key fields arrive hex-encoded and are parsed with
`bytes.fromhex` before use; that inverse pair is elided, so the model
bundle carries group elements directly. -/

/-- The fields of models.PrekeyBundle that X3DHProtocol.initiate_session
reads. -/
structure PrekeyBundleKeys : Type where
  identity_key : G
  signed_prekey : G
  one_time_prekeys : List G
  deriving DecidableEq

/-- Result of X3DHProtocol.initiate_session: (shared_secret,
ephemeral_private_key, initial_message_key). -/
structure X3DHInitResult : Type where
  shared_secret : KB
  ephemeral_key : Nat
  initial_message_key : KB
  deriving DecidableEq

/-- X3DHProtocol._derive_key: HKDF-SHA256 with explicit salt/info. -/
def x3dhDeriveKey (ikm : KB) (salt info : String) (len : Nat) : KB :=
  KB.hkdf (KB.raw (strBytes salt)) info len ikm 0

/-- X3DHProtocol.initiate_session.  `ephemeralScalar` supplies the
`PrivateKey.generate()` randomness. -/
def initiateSession (identityPriv : Nat) (bundle : PrekeyBundleKeys)
    (ephemeralScalar : Nat) : X3DHInitResult :=
  let dh1 := KB.dhOut (scalarMult identityPriv bundle.signed_prekey)
  let dh2 := KB.dhOut (scalarMult ephemeralScalar bundle.identity_key)
  let dh3 := KB.dhOut (scalarMult ephemeralScalar bundle.signed_prekey)
  let dhResults :=
    match bundle.one_time_prekeys with
    | [] => [dh1, dh2, dh3]
    | opk :: _ => [dh1, dh2, dh3, KB.dhOut (scalarMult ephemeralScalar opk)]
  let sharedSecret := x3dhDeriveKey (catList dhResults) "WhatsAppCloneX3DH" "SharedSecret" 32
  { shared_secret := sharedSecret,
    ephemeral_key := ephemeralScalar,
    initial_message_key :=
      x3dhDeriveKey sharedSecret "WhatsAppCloneX3DH" "InitialMessageKey" 32 }

/-- X3DHProtocol.respond_session. -/
def respondSession (identityPriv signedPrekeyPriv : Nat)
    (oneTimePrekeyPriv : Option Nat)
    (remoteIdentityKey remoteEphemeralKey : G) : KB :=
  let dh1 := KB.dhOut (scalarMult signedPrekeyPriv remoteIdentityKey)
  let dh2 := KB.dhOut (scalarMult identityPriv remoteEphemeralKey)
  let dh3 := KB.dhOut (scalarMult signedPrekeyPriv remoteEphemeralKey)
  let dhResults :=
    match oneTimePrekeyPriv with
    | none => [dh1, dh2, dh3]
    | some opk => [dh1, dh2, dh3, KB.dhOut (scalarMult opk remoteEphemeralKey)]
  x3dhDeriveKey (catList dhResults) "WhatsAppCloneX3DH" "SharedSecret" 32

/-! ## Session manager (crypto/session_manager.py) -/

/-- The `session.x3dh_data` dict stored by ensure_session. -/
structure X3DHData : Type where
  localIdentityKey : String
  localEphemeralKey : String
  usedSignedPrekeyId : Option Nat
  usedOneTimePrekeyId : Option Nat
  deriving DecidableEq

/-- The `x3dh` block attached to the first outgoing envelope by
encrypt_message. -/
structure X3DHBlock : Type where
  senderIdentityKey : String
  senderEphemeralKey : String
  usedSignedPrekeyId : Option Nat
  usedOneTimePrekeyId : Option Nat
  deriving DecidableEq

/-- The field renaming encrypt_message performs when attaching the
stored bootstrap block to the envelope. -/
def toX3DHBlock (x : X3DHData) : X3DHBlock where
  senderIdentityKey := x.localIdentityKey
  senderEphemeralKey := x.localEphemeralKey
  usedSignedPrekeyId := x.usedSignedPrekeyId
  usedOneTimePrekeyId := x.usedOneTimePrekeyId

/-- The fields of models.Session the crypto paths read. -/
structure Session : Type where
  shared_secret : KB
  ephemeral_key : Nat
  ratchet_state : Option SerializedState
  x3dh_data : Option X3DHData
  deriving DecidableEq

/-- The ratchet-install block of SessionManager.ensure_session
(initiator): derive (root, sending chain) from the X3DH shared secret
and 32 zero bytes, generate a DH ratchet key pair (`freshSelf`), no
remote key yet. -/
def initiatorInstall (sharedSecret : KB) (freshSelf : Nat) : RatchetState :=
  let rk := kdfRk sharedSecret (KB.raw (List.replicate 32 0))
  { freshRatchetState with
      root_key := rk.1,
      dh_self := some freshSelf,
      dh_remote := none,
      sending_chain_key := some rk.2,
      receiving_chain_key := none }

/-- SessionManager._get_ratchet: deserialize a stored state, or (the
legacy path, when a session has no stored ratchet state) initialize
from the session's shared secret with an ad-hoc HKDF sending chain;
`freshSelf` supplies the generated DH pair of that path. -/
def getRatchet (sess : Session) (freshSelf : Nat) : Except String RatchetState :=
  match sess.ratchet_state with
  | some d => deserializeState d
  | none =>
    .ok { freshRatchetState with
          root_key := sess.shared_secret,
          dh_self := some freshSelf,
          sending_chain_key := some
            (KB.hkdf (KB.raw (strBytes "WhatsAppCloneRatchet"))
              "InitialSendingChain" 32 sess.shared_secret 0) }

/-- The encrypted envelope payload written by encrypt_message
(Signal-protocol JSON format). -/
structure Envelope : Type where
  ciphertext : Cipher
  header : RatchetHeader
  x3dh : Option X3DHBlock
  deriving DecidableEq

/-- SessionManager.encrypt_message: encrypt via the ratchet, store the
new ratchet state on the session, attach the `x3dh` bootstrap block iff
the session still carries one, and clear it with the same save. -/
def encryptMessage (sess : Session) (plaintext : String) (freshSelf : Nat) :
    Except String (Envelope × Session) := do
  let ratchet ← getRatchet sess freshSelf
  let isFirstMessage := sess.x3dh_data.isSome
  let (ciphertext, header, ratchet') ← ratchetEncrypt ratchet plaintext
  let sess1 := { sess with ratchet_state := some (serializeState ratchet') }
  match isFirstMessage, sess.x3dh_data with
  | true, some x =>
    .ok ({ ciphertext := ciphertext, header := header, x3dh := some (toX3DHBlock x) },
         { sess1 with x3dh_data := none })
  | _, _ =>
    .ok ({ ciphertext := ciphertext, header := header, x3dh := none }, sess1)

/-- Inbound wire content of decrypt_message after the E2EE-prefix strip:
either a payload that fails JSON/field extraction, or the parsed
(ciphertext, header) pair. -/
inductive WireMessage : Type where
  | malformed
  | envelope (ciphertext : Cipher) (header : RatchetHeader)
  deriving DecidableEq

/-- SessionManager.decrypt_message: try the skipped-key map first, fall
back to the ratchet decrypt, and only then store the new ratchet state
on the session.  Raising (returning .error) skips the store. -/
def decryptMessage (sess : Session) (msg : WireMessage) (freshSelf : Nat) :
    Except String (String × Session) := do
  match msg with
  | .malformed => .error "Invalid encrypted message format"
  | .envelope ciphertext header =>
    let ratchet ← getRatchet sess freshSelf
    let (tryResult, r1) := trySkippedMessageKeys ratchet ciphertext header
    let (plaintext, r2) ← match tryResult with
      | some pt => pure (pt, r1)
      | none => ratchetDecrypt r1 ciphertext header freshSelf
    .ok (plaintext, { sess with ratchet_state := some (serializeState r2) })

/-- Store-level semantics of a decrypt_message call: on success the
session record is overwritten by `_save_session`; an exception
propagates before any assignment to `session.ratchet_state`, leaving
the stored record untouched. -/
def decryptMessagePersist (sess : Session) (msg : WireMessage) (freshSelf : Nat) :
    Except String String × Session :=
  match decryptMessage sess msg freshSelf with
  | .ok (pt, sess') => (.ok pt, sess')
  | .error e => (.error e, sess)

/-! ## Inbound handling of an encrypted message when a session exists
(client.py, WhatsAppClient._handle_incoming_message) -/

/-- Outcome of the existing-session branch of the handler. -/
inductive InboundOutcome : Type where
  | peerReset
  | decryptExisting
  deriving DecidableEq

/-- The peer-reset heuristic: with an existing session, if the header's
messageNumber is below 5, the session has a stored ratchet state, and
our stored counters satisfy `receiving_message_number > 5 or
sending_message_number > 5`, delete the session and leave the envelope
undecrypted (the handler logs and keeps the encrypted content);
otherwise decrypt with the existing session. -/
def handleExistingSession (sess : Session) (headerMessageNumber : Nat) :
    InboundOutcome :=
  match sess.ratchet_state with
  | some rs =>
    if headerMessageNumber < 5 ∧
        (rs.receiving_message_number > 5 ∨ rs.sending_message_number > 5) then
      .peerReset
    else .decryptExisting
  | none => .decryptExisting

/-- Session store after the existing-session branch:
`delete_session` removes the record exactly on the peer-reset outcome. -/
def sessionStoreAfter (sess : Session) (headerMessageNumber : Nat) :
    Option Session :=
  match handleExistingSession sess headerMessageNumber with
  | .peerReset => none
  | .decryptExisting => some sess

/-! ## Key manager and encrypted vault (crypto/key_manager.py,
storage/keys.py) -/

/-- One entry of the one-time prekey pool. -/
structure OneTimePrekey : Type where
  keyId : Nat
  priv : Nat
  deriving DecidableEq

/-- The key material KeyManager holds after initialization. -/
structure KeyMaterial : Type where
  identity_priv : Nat
  signing_priv : Nat
  signed_prekey_id : Nat
  signed_prekey_priv : Nat
  one_time_prekeys : List OneTimePrekey
  deriving DecidableEq

/-- Randomness consumed by one full key-generation pass. -/
structure KeyRand : Type where
  identity : Nat
  signing : Nat
  signedPrekey : Nat
  oneTime : Nat → Nat

/-- KeyManager._generate_identity_keys + KeyManager._generate_prekeys:
fresh identity and signing pairs, signed prekey with keyId 1, and 100
one-time prekeys with keyIds 1..100. -/
def generateKeys (r : KeyRand) : KeyMaterial where
  identity_priv := r.identity
  signing_priv := r.signing
  signed_prekey_id := 1
  signed_prekey_priv := r.signedPrekey
  one_time_prekeys := (List.range 100).map (fun i => ⟨i + 1, r.oneTime i⟩)

/-- An encrypted vault file as written by KeyStorage.save_keys: the key
dict, AES-256-GCM-encrypted under Argon2id(password, salt).  The AEAD
is sound, so decryption recovers the keys exactly when the password
matches. -/
structure Vault : Type where
  password : String
  keys : KeyMaterial
  deriving DecidableEq

/-- KeyStorage.load_keys: None when no vault file exists or the
password fails to decrypt; the stored key dict otherwise. -/
def loadKeys (vault : Option Vault) (password : String) : Option KeyMaterial :=
  match vault with
  | none => none
  | some v => if v.password = password then some v.keys else none

/-- KeyManager.initialize.  The body runs
`await self._generate_identity_keys()` and
`await self._generate_prekeys()` unconditionally ("For now, always
generate new keys (storage implementation in US13)"); the vault and
password are never consulted. -/
def keyManagerInitialize (_vault : Option Vault) (_password : String)
    (r : KeyRand) : KeyMaterial :=
  generateKeys r

/-- SHA-256 truncated to 30 bytes, symbolically: distinct inputs give
distinct digests (collision-freeness of the hash). -/
inductive Digest : Type where
  | sha256trunc30 (input : List Nat)
  deriving DecidableEq

/-- crypto/utils.format_fingerprint applied to the identity public key
(KeyManager.get_fingerprint). -/
def kmFingerprint (km : KeyMaterial) : Digest :=
  Digest.sha256trunc30 (pubBytes (gpow km.identity_priv))

/-! ## Iterated encryption -/

/-- A sequence of encrypt calls on one ratchet, returning the
(ciphertext, header) pairs in order. -/
def encryptN (s : RatchetState) : List String →
    Except String (List (Cipher × RatchetHeader) × RatchetState)
  | [] => .ok ([], s)
  | pt :: pts => do
    let (c, h, s1) ← ratchetEncrypt s pt
    let (rest, s2) ← encryptN s1 pts
    .ok ((c, h) :: rest, s2)

/-! ## Concrete scenario states used by the claim theorems -/

/-- Shared secret of the C1 out-of-order scenario: an
initiator/responder session pair over the shared secret 0x07…07; the
sender state is the one installed by ensure_session (ratchet scalar 5),
the receiver the one installed by process_first_message via
initialize_responder (own scalar 9, remote ratchet key = sender's). -/
def c1SS : KB := .raw (List.replicate 32 7)

def c1Sender : RatchetState := initiatorInstall c1SS 5

def c1Receiver : RatchetState := initializeResponder c1SS (pubBytes (gpow 5)) 9

/-- The C1 run: encrypt m1, m2, m3 in order; deliver c1 then c3 (both
decrypt, storing the skipped key for position 1), then attempt c2 via
try_skipped_message_keys and, as decrypt_message would on a miss, via
the normal ratchet decrypt.  Returns (p1, p3, skipped-map keys after
c3, try_skipped result for c2, outcome of the fallback decrypt). -/
def c1Run : Except String
    (String × String × List (String × Nat) × Option String × Except String String) := do
  let (c1, h1, s1) ← ratchetEncrypt c1Sender "m1"
  let (c2, h2, s2) ← ratchetEncrypt s1 "m2"
  let (c3, h3, _s3) ← ratchetEncrypt s2 "m3"
  let (p1, r1) ← ratchetDecrypt c1Receiver c1 h1 11
  let (p3, r2) ← ratchetDecrypt r1 c3 h3 12
  let (tryResult, r3) := trySkippedMessageKeys r2 c2 h2
  let fallback : Except String String := (ratchetDecrypt r3 c2 h2 13).map (fun q => q.1)
  .ok (p1, p3, r2.skipped_keys.map (fun q => q.1), tryResult, fallback)

/-- Key material sitting in a stored vault (identity scalar 3),
previously written under the password "correct horse". -/
def c3Stored : KeyMaterial := generateKeys ⟨3, 0, 0, fun _ => 0⟩

/-- The fresh randomness a restarted process draws (identity scalar 4). -/
def c3Rand : KeyRand := ⟨4, 0, 0, fun _ => 0⟩

/-- A stored session whose ratchet counters are Nr = 5, Ns = 0. -/
def c4Session : Session where
  shared_secret := KB.raw []
  ephemeral_key := 0
  ratchet_state := some
    { dh_self := some 1
      dh_remote := none
      root_key := KB.raw []
      sending_chain_key := none
      receiving_chain_key := none
      sending_message_number := 0
      receiving_message_number := 5
      prev_sending_chain_length := 0
      skipped_keys := [] }
  x3dh_data := none

/-- A responder-side session whose stored state can decrypt nothing but
messages on its receiving chain. -/
def c5State : RatchetState :=
  initializeResponder (KB.raw (List.replicate 32 3)) (pubBytes (gpow 2)) 4

def c5Session : Session where
  shared_secret := KB.raw []
  ephemeral_key := 0
  ratchet_state := some (serializeState c5State)
  x3dh_data := none

/-- An envelope whose ciphertext does not authenticate under the
message key the receiving chain derives for position 0. -/
def c5Msg : WireMessage :=
  .envelope (Cipher.sbox (KB.raw [9]) "x")
    { ratchetKey := b64encode (pubBytes (gpow 2)),
      previousChainLength := 0, messageNumber := 0 }

/-- A freshly installed responder state: empty skipped map, receiving
counter 0, max_skip 1000. -/
def c6State : RatchetState :=
  initializeResponder (KB.raw (List.replicate 32 1)) (pubBytes (gpow 3)) 2

/-- An initiator state fresh out of ensure_session (sending chain
installed, counter 0). -/
def c7State : RatchetState := initiatorInstall (KB.raw (List.replicate 32 9)) 6

/-- The sending chain key ensure_session installs in c7State. -/
def c7CK : KB := (kdfRk (KB.raw (List.replicate 32 9)) (KB.raw (List.replicate 32 0))).2

/-- A mid-session ratchet state with a non-empty skipped-key map
(two keys skipped on the current receiving chain). -/
def c8State : RatchetState where
  dh_self := some 2
  dh_remote := some (gpow 3)
  root_key := KB.raw [1]
  sending_chain_key := some (KB.raw [2])
  receiving_chain_key := some (KB.raw [3])
  sending_message_number := 4
  receiving_message_number := 7
  prev_sending_chain_length := 2
  skipped_keys :=
    [((hexOfBytes (pubBytes (gpow 3)), 5), KB.raw [9]),
     ((hexOfBytes (pubBytes (gpow 3)), 6), KB.raw [10])]
  max_skip := 1000

def c9Ratchet : RatchetState := initiatorInstall (KB.raw (List.replicate 32 8)) 3

def c9CK : KB := (kdfRk (KB.raw (List.replicate 32 8)) (KB.raw (List.replicate 32 0))).2

def c9X : X3DHData where
  localIdentityKey := "IK"
  localEphemeralKey := "EK"
  usedSignedPrekeyId := some 1
  usedOneTimePrekeyId := some 2

def c9Session : Session where
  shared_secret := KB.raw []
  ephemeral_key := 0
  ratchet_state := some (serializeState c9Ratchet)
  x3dh_data := some c9X

/-- A state with a single stored skipped key and a ciphertext that does
not authenticate under it. -/
def c10State : RatchetState :=
  { freshRatchetState with skipped_keys := [(("deadbeef", 1), KB.raw [5])] }

def c10Header : RatchetHeader :=
  { ratchetKey := "deadbeef", previousChainLength := 0, messageNumber := 1 }

def c10Cipher : Cipher := Cipher.sbox (KB.raw [6]) "y"

/-! ## Association-list (dict) lemmas -/

theorem lookupSK_insertSK (k k' : String × Nat) (v : KB)
    (m : List ((String × Nat) × KB)) :
    lookupSK k (insertSK k' v m) = if k' = k then some v else lookupSK k m := by
  induction m with
  | nil => simp [insertSK, lookupSK]
  | cons p rest ih =>
    by_cases h1 : p.1 = k'
    · simp [insertSK, h1, lookupSK]
      by_cases h2 : k' = k <;> simp [h2, lookupSK]
    · simp only [insertSK]
      rw [if_neg (by exact fun h => h1 (by simpa using h))]
      by_cases h2 : p.1 = k
      · have : ¬ k' = k := fun h => h1 (h ▸ h2)
        simp [lookupSK, h2, this]
      · simp [lookupSK, h2, ih]

theorem insertSK_of_lookup_none (k : String × Nat) (v : KB)
    (m : List ((String × Nat) × KB)) (h : lookupSK k m = none) :
    insertSK k v m = m ++ [(k, v)] := by
  induction m with
  | nil => rfl
  | cons p rest ih =>
    simp only [lookupSK] at h
    by_cases h1 : p.1 = k
    · simp [h1] at h
    · simp [h1] at h
      simp [insertSK, h1, ih h]

theorem length_insertSK_fresh (k : String × Nat) (v : KB)
    (m : List ((String × Nat) × KB)) (h : lookupSK k m = none) :
    (insertSK k v m).length = m.length + 1 := by
  rw [insertSK_of_lookup_none k v m h]
  simp

theorem lookupSK_append (k : String × Nat) (m1 m2 : List ((String × Nat) × KB))
    (h : lookupSK k m1 = none) :
    lookupSK k (m1 ++ m2) = lookupSK k m2 := by
  induction m1 with
  | nil => rfl
  | cons p rest ih =>
    simp only [lookupSK] at h ⊢
    by_cases h1 : p.1 = k
    · simp [h1] at h
    · simp [h1] at h ⊢
      exact ih h

theorem lookupSK_not_mem_none (k : String × Nat)
    (m : List ((String × Nat) × KB)) (h : k ∉ m.map (·.1)) :
    lookupSK k m = none := by
  induction m with
  | nil => rfl
  | cons p rest ih =>
    simp only [List.map_cons, List.mem_cons, not_or] at h
    simp only [lookupSK]
    rw [if_neg (fun hpk => h.1 hpk.symm)]
    exact ih h.2

theorem lookupSK_eraseSK_nodup (k : String × Nat)
    (m : List ((String × Nat) × KB)) (h : (m.map (·.1)).Nodup) :
    lookupSK k (eraseSK k m) = none := by
  induction m with
  | nil => rfl
  | cons p rest ih =>
    simp only [List.map_cons, List.nodup_cons] at h
    by_cases h1 : p.1 = k
    · simp only [eraseSK, if_pos h1]
      exact lookupSK_not_mem_none k rest (h1 ▸ h.1)
    · simp only [eraseSK, if_neg h1, lookupSK, if_neg h1]
      exact ih h.2

/-! ## Decimal codec lemmas (str(n) / int(s) round-trip) -/

theorem digitChar_toNat (n : Nat) (h : n < 10) : (digitChar n).toNat = 48 + n := by
  interval_cases n <;> rfl

theorem parseDigitsAux_append (acc : Nat) (xs ys : List Char) :
    parseDigitsAux acc (xs ++ ys) =
      (parseDigitsAux acc xs).bind (fun m => parseDigitsAux m ys) := by
  induction xs generalizing acc with
  | nil => rfl
  | cons c cs ih =>
    simp only [List.cons_append, parseDigitsAux]
    by_cases hc : 48 ≤ c.toNat ∧ c.toNat ≤ 57
    · rw [if_pos hc, if_pos hc]
      exact ih (acc * 10 + (c.toNat - 48))
    · rw [if_neg hc, if_neg hc]
      rfl

theorem parseDigitsAux_natDigitsAux (fuel : Nat) :
    ∀ n acc, n < fuel →
      parseDigitsAux acc (natDigitsAux fuel n) =
        some (acc * 10 ^ (natDigitsAux fuel n).length + n) := by
  induction fuel with
  | zero => intro n acc h; omega
  | succ fuel ih =>
    intro n acc h
    by_cases h10 : n < 10
    · simp only [natDigitsAux, if_pos h10, parseDigitsAux]
      rw [if_pos (by rw [digitChar_toNat n h10]; omega), digitChar_toNat n h10]
      simp only [parseDigitsAux, List.length_cons, List.length_nil]
      congr 1
      have : 48 + n - 48 = n := by omega
      rw [this, pow_one]
    · have hdiv : n / 10 < fuel := by omega
      have hmod : n % 10 < 10 := Nat.mod_lt n (by omega)
      simp only [natDigitsAux, if_neg h10]
      rw [parseDigitsAux_append, ih (n / 10) acc hdiv]
      simp only [digitChar_toNat (n % 10) hmod, Option.some_bind, parseDigitsAux]
      rw [if_pos (by omega)]
      have h48 : 48 + n % 10 - 48 = n % 10 := by omega
      rw [h48]
      simp only [List.length_append, List.length_cons, List.length_nil]
      congr 1
      have hdm : n / 10 * 10 + n % 10 = n := by omega
      calc (acc * 10 ^ (natDigitsAux fuel (n / 10)).length + n / 10) * 10 + n % 10
          = acc * (10 ^ (natDigitsAux fuel (n / 10)).length * 10) +
              (n / 10 * 10 + n % 10) := by ring
        _ = acc * 10 ^ ((natDigitsAux fuel (n / 10)).length + 1) + n := by
              rw [hdm, pow_succ]

theorem natDigitsAux_ne_nil (fuel n : Nat) (h : 0 < fuel) :
    natDigitsAux fuel n ≠ [] := by
  cases fuel with
  | zero => omega
  | succ fuel =>
    simp only [natDigitsAux]
    by_cases h10 : n < 10
    · simp [h10]
    · simp [h10]

theorem parseDigits_natDigits (n : Nat) : parseDigits (natDigits n) = some n := by
  have hne := natDigitsAux_ne_nil (n + 1) n (by omega)
  unfold parseDigits natDigits
  split
  · exact absurd (by assumption) hne
  · rw [parseDigitsAux_natDigitsAux (n + 1) n 0 (by omega)]
    simp

theorem natDigitsAux_mem_digit (fuel : Nat) :
    ∀ n c, c ∈ natDigitsAux fuel n → 48 ≤ c.toNat ∧ c.toNat ≤ 57 := by
  induction fuel with
  | zero => intro n c h; simp [natDigitsAux] at h
  | succ fuel ih =>
    intro n c h
    simp only [natDigitsAux] at h
    by_cases h10 : n < 10
    · rw [if_pos h10] at h
      simp only [List.mem_singleton] at h
      subst h
      rw [digitChar_toNat n h10]
      omega
    · rw [if_neg h10] at h
      rcases List.mem_append.mp h with h1 | h1
      · exact ih (n / 10) c h1
      · simp only [List.mem_singleton] at h1
        subst h1
        rw [digitChar_toNat _ (Nat.mod_lt n (by omega))]
        omega

theorem natDigits_no_colon (n : Nat) : ':' ∉ natDigits n := by
  intro h
  have := natDigitsAux_mem_digit (n + 1) n ':' h
  simp at this

/-! ## str.split lemmas -/

theorem splitChar_not_mem (sep : Char) (xs : List Char) (h : sep ∉ xs) :
    splitChar sep xs = [xs] := by
  induction xs with
  | nil => rfl
  | cons c cs ih =>
    simp only [List.mem_cons, not_or] at h
    simp only [splitChar]
    rw [if_neg (fun hc => h.1 hc.symm), ih h.2]

theorem splitChar_append (sep : Char) (xs ys : List Char)
    (hx : sep ∉ xs) (hy : sep ∉ ys) :
    splitChar sep (xs ++ sep :: ys) = [xs, ys] := by
  induction xs with
  | nil =>
    simp only [List.nil_append, splitChar, if_pos]
    rw [splitChar_not_mem sep ys hy]
  | cons c cs ih =>
    simp only [List.mem_cons, not_or] at hx
    simp only [List.cons_append, splitChar]
    rw [if_neg (fun hc => hx.1 hc.symm)]
    have h2 : splitChar sep (cs.append (sep :: ys)) = [cs, ys] := ih hx.2
    rw [h2]

theorem string_mk_data (s : String) : String.mk s.data = s := rfl

/-- Packing a (colon-free dh, counter) skipped-map key and parsing it
back is the identity. -/
theorem parseSkippedKey_pack (dh : String) (n : Nat) (h : ':' ∉ dh.data) :
    parseSkippedKey (String.mk (dh.data ++ ':' :: natDigits n)) = .ok (dh, n) := by
  unfold parseSkippedKey
  have hsplit : splitChar ':' (String.mk (dh.data ++ ':' :: natDigits n)).data
      = [dh.data, natDigits n] :=
    splitChar_append ':' dh.data (natDigits n) h (natDigits_no_colon n)
  rw [hsplit]
  have hp : parseDigits (natDigits n) = some n := parseDigits_natDigits n
  simp only [hp]

/-! ## Deserialization of the skipped map -/

theorem deserialize_fold (l : List ((String × Nat) × KB)) :
    ∀ acc : List ((String × Nat) × KB),
    (l.map (·.1)).Nodup →
    (∀ p ∈ l, ':' ∉ p.1.1.data) →
    (∀ p ∈ l, lookupSK p.1 acc = none) →
    ((l.map (fun p => (String.mk (p.1.1.data ++ ':' :: natDigits p.1.2), p.2))).foldlM
      (fun (a : List ((String × Nat) × KB)) p => do
        let k ← parseSkippedKey p.1
        pure (insertSK k p.2 a)) acc
      : Except String (List ((String × Nat) × KB))) = .ok (acc ++ l) := by
  induction l with
  | nil =>
    intro acc _ _ _
    simp only [List.map_nil, List.foldlM_nil, List.append_nil]
    rfl
  | cons p rest ih =>
    intro acc hnodup hcf hfresh
    simp only [List.map_cons, List.foldlM_cons]
    rw [parseSkippedKey_pack p.1.1 p.1.2 (hcf p (List.mem_cons_self p rest))]
    simp only [Bind.bind, Except.bind, Pure.pure, Except.pure]
    rw [show ((p.1.1, p.1.2) : String × Nat) = p.1 from rfl]
    have hfp : lookupSK p.1 acc = none := hfresh p (List.mem_cons_self p rest)
    rw [insertSK_of_lookup_none p.1 p.2 acc hfp]
    simp only [List.map_cons, List.nodup_cons] at hnodup
    have := ih (acc ++ [(p.1, p.2)]) hnodup.2
      (fun q hq => hcf q (List.mem_cons_of_mem p hq))
      (fun q hq => by
        rw [lookupSK_append q.1 acc [(p.1, p.2)] (hfresh q (List.mem_cons_of_mem p hq))]
        simp only [lookupSK]
        rw [if_neg]
        intro hpq
        exact hnodup.1 (hpq ▸ List.mem_map_of_mem (·.1) hq)
        )
    have hLr : acc ++ [(p.1, p.2)] ++ rest = acc ++ p :: rest := by simp
    exact hLr ▸ this

/-- The skipped map rebuilt by deserialize_state equals the one that
was serialized. -/
theorem deserializeState_serializeState (s : RatchetState)
    (hcf : ∀ p ∈ s.skipped_keys, ':' ∉ p.1.1.data)
    (hnodup : (s.skipped_keys.map (·.1)).Nodup) :
    deserializeState (serializeState s) =
      .ok { freshRatchetState with
            dh_self := s.dh_self,
            dh_remote := s.dh_remote,
            root_key := s.root_key,
            sending_chain_key := s.sending_chain_key,
            receiving_chain_key := s.receiving_chain_key,
            sending_message_number := s.sending_message_number,
            receiving_message_number := s.receiving_message_number,
            prev_sending_chain_length := s.prev_sending_chain_length,
            skipped_keys := s.skipped_keys } := by
  unfold deserializeState serializeState
  rw [deserialize_fold s.skipped_keys [] hnodup hcf (fun p _ => rfl)]
  simp only [List.nil_append, Bind.bind, Except.bind]

/-! ## Skipped-key storage bound lemmas -/

theorem skipAux_ok (dhr : Option G) (maxSkip : Nat) :
    ∀ (fuel : Nat) (ck : KB) (nr : Nat) (sk : List ((String × Nat) × KB)),
    (∀ n, nr ≤ n → lookupSK (dhRemoteHex dhr, n) sk = none) →
    sk.length + fuel ≤ maxSkip →
    ∃ ck' sk', skipAux dhr maxSkip fuel ck nr sk = .ok (ck', nr + fuel, sk') ∧
      sk'.length = sk.length + fuel := by
  intro fuel
  induction fuel with
  | zero => intro ck nr sk _ _; exact ⟨ck, sk, rfl, rfl⟩
  | succ fuel ih =>
    intro ck nr sk hfresh hlen
    have hlt : ¬ sk.length ≥ maxSkip := by omega
    simp only [skipAux, if_neg hlt]
    have hfp : lookupSK (dhRemoteHex dhr, nr) sk = none := hfresh nr (Nat.le_refl nr)
    have hfresh1 : ∀ n, nr + 1 ≤ n →
        lookupSK (dhRemoteHex dhr, n)
          (insertSK (dhRemoteHex dhr, nr) (deriveMessageKey ck) sk) = none := by
      intro n hn
      rw [lookupSK_insertSK]
      rw [if_neg (by intro heq; have := congrArg Prod.snd heq; simp at this; omega)]
      exact hfresh n (by omega)
    have hlen1 : (insertSK (dhRemoteHex dhr, nr) (deriveMessageKey ck) sk).length + fuel
        ≤ maxSkip := by
      rw [length_insertSK_fresh _ _ _ hfp]; omega
    obtain ⟨ck', sk', heq, hlen'⟩ := ih (advanceChainKey ck) (nr + 1)
      (insertSK (dhRemoteHex dhr, nr) (deriveMessageKey ck) sk) hfresh1 hlen1
    refine ⟨ck', sk', ?_, ?_⟩
    · rw [heq]
      have : nr + 1 + fuel = nr + (fuel + 1) := by omega
      rw [this]
    · rw [hlen', length_insertSK_fresh _ _ _ hfp]
      omega

theorem skipAux_error (dhr : Option G) (maxSkip : Nat) :
    ∀ (fuel : Nat) (ck : KB) (nr : Nat) (sk : List ((String × Nat) × KB)),
    (∀ n, nr ≤ n → lookupSK (dhRemoteHex dhr, n) sk = none) →
    1 ≤ fuel → maxSkip < sk.length + fuel →
    skipAux dhr maxSkip fuel ck nr sk = .error "Too many skipped message keys" := by
  intro fuel
  induction fuel with
  | zero => intro ck nr sk _ h1 _; omega
  | succ fuel ih =>
    intro ck nr sk hfresh _ hlen
    by_cases hge : sk.length ≥ maxSkip
    · simp only [skipAux, if_pos hge]
    · simp only [skipAux, if_neg hge]
      have hfp : lookupSK (dhRemoteHex dhr, nr) sk = none := hfresh nr (Nat.le_refl nr)
      have hfresh1 : ∀ n, nr + 1 ≤ n →
          lookupSK (dhRemoteHex dhr, n)
            (insertSK (dhRemoteHex dhr, nr) (deriveMessageKey ck) sk) = none := by
        intro n hn
        rw [lookupSK_insertSK]
        rw [if_neg (by intro heq; have := congrArg Prod.snd heq; simp at this; omega)]
        exact hfresh n (by omega)
      refine ih (advanceChainKey ck) (nr + 1) _ hfresh1 (by omega) ?_
      rw [length_insertSK_fresh _ _ _ hfp]
      omega

/-! ## Sending-chain step lemma -/

theorem ratchetEncrypt_step (s : RatchetState) (ck : KB) (a : Nat) (pt : String)
    (hck : s.sending_chain_key = some ck) (ha : s.dh_self = some a) :
    ratchetEncrypt s pt = .ok (Cipher.sbox (deriveMessageKey ck) pt,
      { ratchetKey := b64encode (pubBytes (gpow a)),
        previousChainLength := s.prev_sending_chain_length,
        messageNumber := s.sending_message_number },
      { s with sending_chain_key := some (advanceChainKey ck),
               sending_message_number := s.sending_message_number + 1 }) := by
  simp only [ratchetEncrypt, hck, ha, Bind.bind, Except.bind, Pure.pure, Except.pure]

/-- C7: monotonic send counters.  For any ratchet state with a sending
chain and any sequence of successful encrypt calls with no intervening
DH ratchet, the produced headers carry messageNumber values
Ns0, Ns0+1, …, Ns0+k-1, the sending counter ends at Ns0+k (one
increment per call), and the sending chain key is advanced exactly once
per call. -/
theorem spec_c7_monotonic_counters :
    ∀ (pts : List String) (s : RatchetState) (ck : KB) (a : Nat),
    s.sending_chain_key = some ck → s.dh_self = some a →
    ∃ outs s', encryptN s pts = .ok (outs, s') ∧
      outs.length = pts.length ∧
      (∀ i (hi : i < outs.length),
        (outs.get ⟨i, hi⟩).2.messageNumber = s.sending_message_number + i) ∧
      s'.sending_message_number = s.sending_message_number + pts.length ∧
      s'.sending_chain_key = some (advanceChainKey^[pts.length] ck) := by
  intro pts
  induction pts with
  | nil =>
    intro s ck a hck ha
    exact ⟨[], s, rfl, rfl, fun i hi => absurd hi (by simp), rfl, by simpa using hck⟩
  | cons pt pts ih =>
    intro s ck a hck ha
    have hstep := ratchetEncrypt_step s ck a pt hck ha
    obtain ⟨outs, s', heq, hlenout, hmsg, hns, hsck⟩ :=
      ih { s with sending_chain_key := some (advanceChainKey ck),
                  sending_message_number := s.sending_message_number + 1 }
        (advanceChainKey ck) a rfl ha
    refine ⟨(Cipher.sbox (deriveMessageKey ck) pt,
             ({ ratchetKey := b64encode (pubBytes (gpow a)),
                previousChainLength := s.prev_sending_chain_length,
                messageNumber := s.sending_message_number } : RatchetHeader)) :: outs,
            s', ?_, ?_, ?_, ?_, ?_⟩
    · simp only [encryptN, hstep, Bind.bind, Except.bind, heq]
    · simpa using hlenout
    · intro i hi
      cases i with
      | zero => rfl
      | succ j =>
        have hj : j < outs.length := by simpa using hi
        have h2 := hmsg j hj
        show (outs.get ⟨j, hj⟩).2.messageNumber = s.sending_message_number + (j + 1)
        rw [h2]
        show s.sending_message_number + 1 + j = s.sending_message_number + (j + 1)
        omega
    · rw [hns]
      simp only [List.length_cons]
      omega
    · rw [hsck]
      simp only [List.length_cons]
      rw [← Function.iterate_succ_apply]

/-- C1: refuted — out-of-order delivery is broken in the code.  In the
concrete established session, messages m1 and m3 decrypt, and the
skipped message key for position 1 is stored under the hex encoding of
the sender's ratchet key; but try_skipped_message_keys looks the map up
under the header's base64 ratchet key, which differs from the hex
string, so the lookup misses, and the fallback ratchet decrypt fails
because the receiving chain has moved past position 1.  The second
conjunct exhibits the encoding mismatch itself.  (The repository's own
test_out_of_order_messages expects the try_skipped call to return m2,
so the code contradicts its own test suite: the spec is the intent and
the code a slip.) -/
theorem spec_c1_out_of_order_code_bug :
    c1Run = .ok ("m1", "m3", [(hexOfBytes (pubBytes (gpow 5)), 1)], none,
      .error "Decryption failed")
    ∧ b64encode (pubBytes (gpow 5)) ≠ hexOfBytes (pubBytes (gpow 5)) :=
  ⟨rfl, by decide⟩

/-- C2: X3DH agreement.  For any identity, signed-prekey, one-time
prekey and ephemeral scalars, initiate_session over the responder's
public bundle (with the one-time prekey listed exactly when the
responder holds one) and respond_session with the matching private
halves derive the same shared secret. -/
theorem spec_c2_x3dh_agreement (ika ikb spkb eka : Nat) (opkb : Option Nat) :
    (initiateSession ika
      { identity_key := gpow ikb,
        signed_prekey := gpow spkb,
        one_time_prekeys := match opkb with | some o => [gpow o] | none => [] }
      eka).shared_secret
    = respondSession ikb spkb opkb (gpow ika) (gpow eka) := by
  cases opkb with
  | none =>
    simp only [initiateSession, respondSession, scalarMult, gpow, catList, x3dhDeriveKey]
    rw [pow_right_comm gBase spkb ika, pow_right_comm gBase ikb eka,
      pow_right_comm gBase spkb eka]
  | some o =>
    simp only [initiateSession, respondSession, scalarMult, gpow, catList, x3dhDeriveKey]
    rw [pow_right_comm gBase spkb ika, pow_right_comm gBase ikb eka,
      pow_right_comm gBase spkb eka, pow_right_comm gBase o eka]

/-! ## Claim C3: vault persistence of identity -/

/-- C3: refuted — KeyManager.initialize never loads the vault.  First
conjunct: initialize generates fresh key material from its randomness
for every vault and password, including when an encrypted vault exists
and the password decrypts it (second conjunct shows the vault does
decrypt under this password).  Third conjunct: consequently the
fingerprint reported after the restart differs from the stored one.
The method's own docstring promises to load from storage when keys
exist, so the claim/spec is the intent and the code (an explicit
"for now" stub) is the slip. -/
theorem spec_c3_vault_persistence_code_bug :
    (∀ (vault : Option Vault) (pw : String) (r : KeyRand),
        keyManagerInitialize vault pw r = generateKeys r)
    ∧ loadKeys (some ⟨"correct horse", c3Stored⟩) "correct horse" = some c3Stored
    ∧ kmFingerprint (keyManagerInitialize (some ⟨"correct horse", c3Stored⟩)
        "correct horse" c3Rand) ≠ kmFingerprint c3Stored :=
  ⟨fun _ _ _ => rfl, rfl, by decide⟩

/-! ## Claim C4: peer-reset detection -/

/-- C4 counterexample: the claim as stated is false.  With an existing
session at Nr = 5, Ns = 0 and an inbound header messageNumber 0, the
claim's trigger condition (messageNumber < 5 and Nr ≥ 5 ∨ Ns ≥ 5)
holds, yet the code keeps the session and decrypts with the existing
ratchet: the source tests the counters with strict "> 5", not "≥ 5". -/
theorem spec_c4_peer_reset_cex :
    (0 < 5 ∧ (5 ≥ 5 ∨ 0 ≥ 5))
    ∧ handleExistingSession c4Session 0 = .decryptExisting
    ∧ sessionStoreAfter c4Session 0 = some c4Session :=
  ⟨⟨by omega, Or.inl (by omega)⟩, rfl, rfl⟩

/-- C4 (amended): on an inbound encrypted message with an existing
session carrying a stored ratchet state, the client deletes the session
and leaves the envelope undecrypted exactly when the header's
messageNumber is less than 5 and the stored receiving counter is
greater than 5 or the stored sending counter is greater than 5; in
every other case it decrypts with the existing ratchet and the session
record survives. -/
theorem spec_c4_peer_reset_amended (sess : Session) (rs : SerializedState)
    (n : Nat) (h : sess.ratchet_state = some rs) :
    ((handleExistingSession sess n = .peerReset ∧ sessionStoreAfter sess n = none)
      ↔ (n < 5 ∧ (rs.receiving_message_number > 5 ∨ rs.sending_message_number > 5)))
    ∧ (handleExistingSession sess n = .decryptExisting
      ↔ ¬ (n < 5 ∧ (rs.receiving_message_number > 5 ∨ rs.sending_message_number > 5))) := by
  simp only [handleExistingSession, sessionStoreAfter, h]
  by_cases hc : n < 5 ∧ (rs.receiving_message_number > 5 ∨ rs.sending_message_number > 5)
  · simp [hc]
  · simp [hc]

/-- C4 witness: both directions instantiated.  With counters
Nr = 5, Ns = 0 the trigger condition of the amended claim fails, so
the decrypt branch is taken. -/
theorem spec_c4_peer_reset_amended_witness :
    c4Session.ratchet_state.isSome = true
    ∧ (handleExistingSession c4Session 0 = .decryptExisting
      ↔ ¬ (0 < 5 ∧ (5 > 5 ∨ 0 > 5))) := by
  refine ⟨rfl, ?_⟩
  have h := spec_c4_peer_reset_amended c4Session
    { dh_self := some 1
      dh_remote := none
      root_key := KB.raw []
      sending_chain_key := none
      receiving_chain_key := none
      sending_message_number := 0
      receiving_message_number := 5
      prev_sending_chain_length := 0
      skipped_keys := [] } 0 rfl
  exact h.2

/-! ## Claim C5: decrypt atomicity -/

/-- C5: whenever decrypt_message raises, the persisted session record —
and with it every ratchet-state field and the skipped-key map — is
exactly what it was before the call; the in-memory chain advances
performed before the AEAD open are discarded with the working copy. -/
theorem decryptPersistError (sess : Session) (msg : WireMessage)
    (freshSelf : Nat) (e : String)
    (h : (decryptMessagePersist sess msg freshSelf).1 = .error e) :
    (decryptMessagePersist sess msg freshSelf).2 = sess := by
  unfold decryptMessagePersist at h ⊢
  cases hd : decryptMessage sess msg freshSelf with
  | ok v =>
    obtain ⟨pt, s2⟩ := v
    rw [hd] at h
    exact absurd h (by simp)
  | error e2 => rfl

/-- C5: whenever decrypt_message raises, the persisted session record —
and with it every ratchet-state field and the skipped-key map — is
exactly what it was before the call; the in-memory chain advances and
skipped-key insertions performed before the AEAD open are discarded
with the working copy. -/
theorem spec_c5_decrypt_atomicity (sess : Session) (msg : WireMessage)
    (freshSelf : Nat) (e : String)
    (h : (decryptMessagePersist sess msg freshSelf).1 = .error e) :
    (decryptMessagePersist sess msg freshSelf).2 = sess :=
  decryptPersistError sess msg freshSelf e h

/-- C5 witness: a concrete AEAD authentication failure inside decrypt,
after which the persisted session equals the original. -/
theorem spec_c5_decrypt_atomicity_witness :
    (decryptMessagePersist c5Session c5Msg 7).1 = .error "Decryption failed"
    ∧ (decryptMessagePersist c5Session c5Msg 7).2 = c5Session :=
  ⟨rfl, spec_c5_decrypt_atomicity c5Session c5Msg 7 "Decryption failed" rfl⟩

/-- C7 witness: three successive encrypt calls on the concrete
initiator state number their headers 0, 1, 2 and advance the chain
three times. -/
theorem spec_c7_monotonic_counters_witness :
    c7State.sending_chain_key = some c7CK ∧ c7State.dh_self = some 6 ∧
    (∃ outs s', encryptN c7State ["a", "b", "c"] = .ok (outs, s') ∧
      outs.length = ["a", "b", "c"].length ∧
      (∀ i (hi : i < outs.length),
        (outs.get ⟨i, hi⟩).2.messageNumber = c7State.sending_message_number + i) ∧
      s'.sending_message_number =
        c7State.sending_message_number + ["a", "b", "c"].length ∧
      s'.sending_chain_key = some (advanceChainKey^[["a", "b", "c"].length] c7CK)) :=
  ⟨rfl, rfl, spec_c7_monotonic_counters ["a", "b", "c"] c7State c7CK 6 rfl rfl⟩

/-! ## Claim C6: skipped-key DoS bound -/

/-- C6: during a single decrypt, storing the skipped keys the header
requires fails with the crypto error "Too many skipped message keys"
exactly when it would push the skipped map beyond max_skip = 1000
entries, and succeeds (storing exactly the required number) when the
bound is respected; and any erroring decrypt_message leaves the
persisted session unchanged.  The freshness hypothesis — no key at or
beyond the current receiving counter is already stored — holds in
every reachable state because the counter only moves past stored
positions. -/
theorem spec_c6_skip_bound (s : RatchetState) (til : Nat) (ck : KB)
    (hck : s.receiving_chain_key = some ck)
    (hmax : s.max_skip = 1000)
    (hfresh : ∀ n, s.receiving_message_number ≤ n →
        lookupSK (dhRemoteHex s.dh_remote, n) s.skipped_keys = none) :
    ((0 < til - s.receiving_message_number ∧
        1000 < s.skipped_keys.length + (til - s.receiving_message_number)) →
      skipMessageKeys s til = .error "Too many skipped message keys")
    ∧ (s.skipped_keys.length + (til - s.receiving_message_number) ≤ 1000 →
      ∃ s', skipMessageKeys s til = .ok s' ∧
        s'.skipped_keys.length =
          s.skipped_keys.length + (til - s.receiving_message_number))
    ∧ (∀ (sess : Session) (msg : WireMessage) (f : Nat) (e : String),
        (decryptMessagePersist sess msg f).1 = .error e →
        (decryptMessagePersist sess msg f).2 = sess) := by
  refine ⟨?_, ?_, fun sess msg f e he => decryptPersistError sess msg f e he⟩
  · intro ⟨h1, h2⟩
    have herr := skipAux_error s.dh_remote s.max_skip
      (til - s.receiving_message_number) ck s.receiving_message_number
      s.skipped_keys hfresh (by omega) (by omega)
    simp only [skipMessageKeys, hck, herr]
  · intro hle
    obtain ⟨ck', sk', heq, hlen⟩ := skipAux_ok s.dh_remote s.max_skip
      (til - s.receiving_message_number) ck s.receiving_message_number
      s.skipped_keys hfresh (by omega)
    refine ⟨{ s with receiving_chain_key := some ck', receiving_message_number := s.receiving_message_number + (til - s.receiving_message_number), skipped_keys := sk' }, ?_, ?_⟩
    · simp only [skipMessageKeys, hck, heq]
    · exact hlen

/-- C6 witness: a decrypt that would have to store 1001 skipped keys is
rejected with the crypto error. -/
theorem spec_c6_skip_bound_witness :
    (c6State.receiving_chain_key.isSome = true ∧ c6State.max_skip = 1000
      ∧ c6State.skipped_keys = [] ∧ c6State.receiving_message_number = 0)
    ∧ ((0 < 1001 - c6State.receiving_message_number ∧
        1000 < c6State.skipped_keys.length + (1001 - c6State.receiving_message_number)) →
      skipMessageKeys c6State 1001 = .error "Too many skipped message keys") :=
  ⟨⟨rfl, rfl, rfl, rfl⟩,
   (spec_c6_skip_bound c6State 1001 _ rfl rfl (fun _ _ => rfl)).1⟩

/-! ## Claim C8: serialization round-trip -/

/-- C8: deserialize_state(serialize_state(state)) reproduces every
field: self DH key, remote DH key, root key, both chain keys, Ns, Nr,
PN, and the skipped-key map.  The two hypotheses — skipped-map dh
components contain no colon, and map keys are distinct — hold in every
reachable state: keys are inserted only by _skip_message_keys, whose dh
component is a hex string (or empty), and the underlying dict cannot
hold duplicate keys. -/
theorem spec_c8_serialize_roundtrip (s : RatchetState)
    (hcf : ∀ p ∈ s.skipped_keys, ':' ∉ p.1.1.data)
    (hnodup : (s.skipped_keys.map (·.1)).Nodup) :
    ∃ s', deserializeState (serializeState s) = .ok s'
      ∧ s'.dh_self = s.dh_self
      ∧ s'.dh_remote = s.dh_remote
      ∧ s'.root_key = s.root_key
      ∧ s'.sending_chain_key = s.sending_chain_key
      ∧ s'.receiving_chain_key = s.receiving_chain_key
      ∧ s'.sending_message_number = s.sending_message_number
      ∧ s'.receiving_message_number = s.receiving_message_number
      ∧ s'.prev_sending_chain_length = s.prev_sending_chain_length
      ∧ s'.skipped_keys = s.skipped_keys :=
  ⟨_, deserializeState_serializeState s hcf hnodup,
    rfl, rfl, rfl, rfl, rfl, rfl, rfl, rfl, rfl⟩

/-- C8 witness: the round-trip at the concrete state with a non-empty
skipped map. -/
theorem spec_c8_serialize_roundtrip_witness :
    ((∀ p ∈ c8State.skipped_keys, ':' ∉ p.1.1.data)
      ∧ (c8State.skipped_keys.map (fun q => q.1)).Nodup)
    ∧ (∃ s', deserializeState (serializeState c8State) = .ok s'
      ∧ s'.dh_self = c8State.dh_self
      ∧ s'.dh_remote = c8State.dh_remote
      ∧ s'.root_key = c8State.root_key
      ∧ s'.sending_chain_key = c8State.sending_chain_key
      ∧ s'.receiving_chain_key = c8State.receiving_chain_key
      ∧ s'.sending_message_number = c8State.sending_message_number
      ∧ s'.receiving_message_number = c8State.receiving_message_number
      ∧ s'.prev_sending_chain_length = c8State.prev_sending_chain_length
      ∧ s'.skipped_keys = c8State.skipped_keys) :=
  ⟨⟨by decide, by decide⟩,
   spec_c8_serialize_roundtrip c8State (by decide) (by decide)⟩

/-! ## Claim C10: skipped-key hit is consumed even on AEAD failure -/

/-- C10: when try_skipped_message_keys finds an entry for the header's
(ratchet key, message number), the entry is removed before the AEAD
open; if the open then fails the function returns None and the key is
not restored — a lookup for the same position in the resulting state
finds nothing. -/
theorem spec_c10_skipped_key_discard (s : RatchetState) (c : Cipher)
    (h : RatchetHeader) (mk : KB)
    (hnodup : (s.skipped_keys.map (fun q => q.1)).Nodup)
    (hmem : lookupSK (h.ratchetKey, h.messageNumber) s.skipped_keys = some mk) :
    (trySkippedMessageKeys s c h).2.skipped_keys
        = eraseSK (h.ratchetKey, h.messageNumber) s.skipped_keys
    ∧ lookupSK (h.ratchetKey, h.messageNumber)
        (trySkippedMessageKeys s c h).2.skipped_keys = none
    ∧ (sboxOpen mk c = none → (trySkippedMessageKeys s c h).1 = none) := by
  simp only [trySkippedMessageKeys, hmem]
  refine ⟨?_, ?_, ?_⟩
  · trivial
  · exact lookupSK_eraseSK_nodup _ _ hnodup
  · exact fun hopen => hopen

/-- C10 witness: the undecryptable ciphertext consumes the stored key;
the skipped map ends empty and the call returns None. -/
theorem spec_c10_skipped_key_discard_witness :
    ((c10State.skipped_keys.map (fun q => q.1)).Nodup
      ∧ lookupSK (c10Header.ratchetKey, c10Header.messageNumber) c10State.skipped_keys
          = some (KB.raw [5])
      ∧ sboxOpen (KB.raw [5]) c10Cipher = none)
    ∧ ((trySkippedMessageKeys c10State c10Cipher c10Header).2.skipped_keys
        = eraseSK (c10Header.ratchetKey, c10Header.messageNumber) c10State.skipped_keys
      ∧ lookupSK (c10Header.ratchetKey, c10Header.messageNumber)
          (trySkippedMessageKeys c10State c10Cipher c10Header).2.skipped_keys = none
      ∧ (sboxOpen (KB.raw [5]) c10Cipher = none →
          (trySkippedMessageKeys c10State c10Cipher c10Header).1 = none)) :=
  ⟨⟨by decide, rfl, rfl⟩,
   spec_c10_skipped_key_discard c10State c10Cipher c10Header (KB.raw [5])
     (by decide) rfl⟩

/-! ## Claim C9: first-message bootstrap attachment -/

theorem encryptMessage_steady (sess : Session) (pt : String) (f : Nat)
    (env : Envelope) (sess' : Session)
    (hx : sess.x3dh_data = none)
    (h : encryptMessage sess pt f = .ok (env, sess')) :
    env.x3dh = none ∧ sess'.x3dh_data = none := by
  unfold encryptMessage at h
  cases hg : getRatchet sess f with
  | error e =>
    rw [hg] at h
    simp [Bind.bind, Except.bind] at h
  | ok r =>
    rw [hg] at h
    simp only [Bind.bind, Except.bind] at h
    cases he : ratchetEncrypt r pt with
    | error e =>
      rw [he] at h
      simp at h
    | ok trip =>
      obtain ⟨c, hdr, r2⟩ := trip
      rw [he, hx] at h
      simp only [Bind.bind, Except.bind, Option.isSome, Except.ok.injEq,
        Prod.mk.injEq] at h
      obtain ⟨h1, h2⟩ := h
      constructor
      · rw [← h1]
      · rw [← h2]

/-- C9: the first successful encrypt_message after an initiator session
is established attaches the stored x3dh bootstrap block (sender
identity key, sender ephemeral key, used signed-prekey id, used
one-time-prekey id) to the envelope and clears it from the stored
session in the same save as the advanced ratchet state; every envelope
produced on the session afterwards carries no x3dh block. -/
theorem spec_c9_first_message_bootstrap (sess : Session) (x : X3DHData)
    (d : SerializedState) (r : RatchetState) (ck : KB) (a : Nat)
    (pt : String) (f : Nat)
    (hx : sess.x3dh_data = some x) (hd : sess.ratchet_state = some d)
    (hr : deserializeState d = .ok r)
    (hck : r.sending_chain_key = some ck) (ha : r.dh_self = some a) :
    ∃ env sess', encryptMessage sess pt f = .ok (env, sess')
      ∧ env.x3dh = some (toX3DHBlock x)
      ∧ sess'.x3dh_data = none
      ∧ sess'.ratchet_state = some (serializeState
          { r with sending_chain_key := some (advanceChainKey ck),
                   sending_message_number := r.sending_message_number + 1 })
      ∧ (∀ (pt2 : String) (f2 : Nat) (env2 : Envelope) (sess'' : Session),
          encryptMessage sess' pt2 f2 = .ok (env2, sess'') →
          env2.x3dh = none ∧ sess''.x3dh_data = none) := by
  have hg : getRatchet sess f = .ok r := by
    simp only [getRatchet, hd, hr]
  have hstep := ratchetEncrypt_step r ck a pt hck ha
  refine ⟨{ ciphertext := Cipher.sbox (deriveMessageKey ck) pt,
            header := { ratchetKey := b64encode (pubBytes (gpow a)),
                        previousChainLength := r.prev_sending_chain_length,
                        messageNumber := r.sending_message_number },
            x3dh := some (toX3DHBlock x) },
          { sess with
              ratchet_state := some (serializeState
                { r with sending_chain_key := some (advanceChainKey ck),
                         sending_message_number := r.sending_message_number + 1 }),
              x3dh_data := none },
          ?_, rfl, rfl, rfl, ?_⟩
  · simp only [encryptMessage, hg, hstep, hx, Bind.bind, Except.bind]
    rfl
  · intro pt2 f2 env2 sess'' h2
    exact encryptMessage_steady _ pt2 f2 env2 sess'' rfl h2

/-- C9 witness: the concrete freshly established initiator session
attaches and clears its bootstrap block on the first encrypt. -/
theorem spec_c9_first_message_bootstrap_witness :
    (c9Session.x3dh_data = some c9X
      ∧ c9Session.ratchet_state = some (serializeState c9Ratchet)
      ∧ deserializeState (serializeState c9Ratchet) = .ok c9Ratchet
      ∧ c9Ratchet.sending_chain_key = some c9CK
      ∧ c9Ratchet.dh_self = some 3)
    ∧ (∃ env sess', encryptMessage c9Session "hello" 0 = .ok (env, sess')
      ∧ env.x3dh = some (toX3DHBlock c9X)
      ∧ sess'.x3dh_data = none
      ∧ sess'.ratchet_state = some (serializeState
          { c9Ratchet with sending_chain_key := some (advanceChainKey c9CK),
                           sending_message_number := c9Ratchet.sending_message_number + 1 })
      ∧ (∀ (pt2 : String) (f2 : Nat) (env2 : Envelope) (sess'' : Session),
          encryptMessage sess' pt2 f2 = .ok (env2, sess'') →
          env2.x3dh = none ∧ sess''.x3dh_data = none)) :=
  ⟨⟨rfl, rfl, rfl, rfl, rfl⟩,
   spec_c9_first_message_bootstrap c9Session c9X (serializeState c9Ratchet)
     c9Ratchet c9CK 3 "hello" 0 rfl rfl rfl rfl rfl⟩

end WhatsAppClone
